import Mathlib

/-!
PermissionsBasedManagementPolicyProvider::UserMayLoad

A shallow embedding of
`chrome/browser/extensions/permissions_based_management_policy_provider.cc`.

The method reads an extension, consults the `ExtensionManagement` settings
object the provider was constructed with, and may write one string through
the caller's `error` pointer.  The embedding makes that memory explicit: a
`World` holds the extension, the provider (with its `settings_` member), the
contents of the `error` location (`none` for a null pointer) and a log of the
calls made to collaborators.  A call either returns a boolean together with
the world it leaves behind, or has no defined outcome: the source calls through
`settings_` without a null test, which is undefined behaviour when the pointer
is null.  The embedding marks that case with an error value so that the
function is total; the value says that the source fixes no outcome there, not
that the compiled program stops.
-/

namespace extensions

/-! ## Collaborators that are declared outside the translated file -/

/-- Modelled from the spec: the enum `Manifest::Location`
(`extensions/common/manifest.h` is not among the sources).  The spec lists the
origin classifications Component, WebStore, Unpacked, ExternalPolicy and
ExternalRegistry. -/
inductive Location where
  | Component
  | WebStore
  | Unpacked
  | ExternalPolicy
  | ExternalRegistry
  deriving DecidableEq, Repr

/-- Modelled from the spec: `Manifest::IsComponentLocation`
(`extensions/common/manifest.h` is not among the sources).  The spec collapses
the classification to "trusted-component versus all other" and tests
`origin == Component`. -/
def Manifest.IsComponentLocation (location : Location) : Bool :=
  location == Location.Component

/-- Modelled from the spec: `PermissionSet`
(`extensions/common/permissions/permission_set.h` is not among the sources),
a set of opaque capability tokens such as "storage" or "tabs". -/
abbrev PermissionSet := List String

/-- The part of `extensions::Extension` the method reads through
`location()`, `name()`, `id()` and the permissions parser. -/
structure Extension where
  id : String
  name : String
  location : Location
  required_permissions : PermissionSet
  deriving DecidableEq, Repr

/-- Modelled from the spec: `PermissionsParser::GetRequiredPermissions`
(`extensions/common/manifest_handlers/permissions_parser.h` is not among the
sources).  The required set was resolved when the manifest was parsed; the
call only hands it out. -/
def PermissionsParser.GetRequiredPermissions (extension : Extension) : PermissionSet :=
  extension.required_permissions

/-- Modelled from the spec: `ExtensionManagement`
(`chrome/browser/extensions/extension_management.h` is not among the sources).
Only `IsPermissionSetAllowed` is used, and the spec describes it as a pure
query over (extension, capability set). -/
structure ExtensionManagement where
  IsPermissionSetAllowed : Extension → PermissionSet → Bool

/-- Modelled from the spec: `base::UTF8ToUTF16`
(`base/strings/utf_string_conversions.h` is not among the sources).  Both
encodings are represented by `String`, so the conversion keeps the text. -/
def base.UTF8ToUTF16 (utf8 : String) : String := utf8

/-- A piece of a message template: literal text, or the n-th replacement
parameter (`$1`, `$2`). -/
inductive TemplatePiece where
  | text (s : String)
  | param (n : Nat)
  deriving DecidableEq, Repr

/-- Modelled from the spec: the string resource
`IDS_EXTENSION_CANT_INSTALL_POLICY_BLOCKED` (`grit/extensions_strings.h` is not
among the sources).  The spec gives the template as
"Extension <name> (id: <id>) can't be installed because its required
permissions are blocked by administrator policy." -/
def IDS_EXTENSION_CANT_INSTALL_POLICY_BLOCKED : List TemplatePiece :=
  [ TemplatePiece.text "Extension ",
    TemplatePiece.param 1,
    TemplatePiece.text " (id: ",
    TemplatePiece.param 2,
    TemplatePiece.text ") can't be installed because its required permissions are blocked by administrator policy." ]

/-- Modelled from the spec: `l10n_util::GetStringFUTF16` with two replacement
strings (`ui/base/l10n/l10n_util.h` is not among the sources).  Each parameter
slot is replaced, in one pass, by the corresponding string taken verbatim. -/
def l10n_util.GetStringFUTF16 (message : List TemplatePiece) (a b : String) : String :=
  String.join (message.map fun piece =>
    match piece with
    | TemplatePiece.text s => s
    | TemplatePiece.param 1 => a
    | TemplatePiece.param 2 => b
    | TemplatePiece.param _ => "")

/-! ## The provider -/

/-- The provider object: its only member is the `settings_` pointer, `none`
when the pointer is null. -/
structure PermissionsBasedManagementPolicyProvider where
  settings_ : Option ExtensionManagement

/-- The constructor stores the pointer it is given; it performs no check. -/
def PermissionsBasedManagementPolicyProvider.new (settings : Option ExtensionManagement) :
    PermissionsBasedManagementPolicyProvider :=
  { settings_ := settings }

/-- A call made to a collaborator, kept in the log of the world. -/
inductive Call where
  | GetRequiredPermissions (extension : Extension)
  | IsPermissionSetAllowed (extension : Extension) (permissions : PermissionSet)
  deriving DecidableEq, Repr

/-- Whether a logged call is a query of the ruleset. -/
def Call.isQuery : Call → Bool
  | Call.IsPermissionSetAllowed _ _ => true
  | Call.GetRequiredPermissions _ => false

/-- The memory a call of `UserMayLoad` can see. -/
structure World where
  /-- The object behind the `extension` pointer. -/
  extension : Extension
  /-- The provider the method is called on. -/
  provider : PermissionsBasedManagementPolicyProvider
  /-- The string behind the `error` pointer; `none` when the pointer is null. -/
  error : Option String
  /-- The collaborator calls made so far, oldest first. -/
  calls : List Call

/-- The cases in which the source fixes no outcome of a call.  The only one is
the call through a null `settings_`: the method has no null test and no
DCHECK, so this is undefined behaviour.  The value marks the case; it does not
describe what the compiled program does. -/
inductive Fault where
  | UndefinedBehavior
  deriving DecidableEq, Repr

/-- The number of `IsPermissionSetAllowed` queries in a log. -/
def queryCount (calls : List Call) : Nat :=
  (calls.filter Call.isQuery).length

/-- The method `PermissionsBasedManagementPolicyProvider::UserMayLoad`. -/
def PermissionsBasedManagementPolicyProvider.UserMayLoad (w : World) :
    Except Fault (Bool × World) :=
  -- Component extensions are always allowed.
  if Manifest.IsComponentLocation w.extension.location then
    Except.ok (true, w)
  else
    let required_permissions := PermissionsParser.GetRequiredPermissions w.extension
    let w1 : World := { w with calls := w.calls ++ [Call.GetRequiredPermissions w.extension] }
    match w1.provider.settings_ with
    -- settings_ is used without a null test: no defined outcome when it is null.
    | none => Except.error Fault.UndefinedBehavior
    | some settings =>
      let w2 : World :=
        { w1 with calls := w1.calls ++ [Call.IsPermissionSetAllowed w.extension required_permissions] }
      if !settings.IsPermissionSetAllowed w.extension required_permissions then
        match w2.error with
        | some _ =>
          Except.ok (false,
            { w2 with
              error := some (l10n_util.GetStringFUTF16 IDS_EXTENSION_CANT_INSTALL_POLICY_BLOCKED
                (base.UTF8ToUTF16 w.extension.name) (base.UTF8ToUTF16 w.extension.id)) })
        | none => Except.ok (false, w2)
      else
        Except.ok (true, w2)

/-- The message `UserMayLoad` formats for an extension. -/
def blockedMessage (extension : Extension) : String :=
  l10n_util.GetStringFUTF16 IDS_EXTENSION_CANT_INSTALL_POLICY_BLOCKED
    (base.UTF8ToUTF16 extension.name) (base.UTF8ToUTF16 extension.id)

/-- The world a call on a non-component extension leaves behind when the
ruleset answers `allowed`. -/
def afterQuery (w : World) (allowed : Bool) : World :=
  { extension := w.extension,
    provider := w.provider,
    error := if allowed then w.error else w.error.map fun _ => blockedMessage w.extension,
    calls := w.calls ++ [Call.GetRequiredPermissions w.extension,
      Call.IsPermissionSetAllowed w.extension w.extension.required_permissions] }

/-- Whether an error location holds a message: there is a location and the
string in it is not empty. -/
def populated (error : Option String) : Bool :=
  match error with
  | some msg => decide (msg ≠ "")
  | none => false

/-- Calls `UserMayLoad` n times in a row on the same extension, provider and
error location, each call starting in the world the previous one left, and
collects the booleans the calls return, oldest first. -/
def callRepeatedly : Nat → World → Except Fault (List Bool × World)
  | 0, w => Except.ok ([], w)
  | n + 1, w =>
    match PermissionsBasedManagementPolicyProvider.UserMayLoad w with
    | Except.error fault => Except.error fault
    | Except.ok (allowed, w1) =>
      match callRepeatedly n w1 with
      | Except.error fault => Except.error fault
      | Except.ok (rest, wn) => Except.ok (allowed :: rest, wn)

/-- The log entries of n calls that each ask the parser for the required set
of `extension` and then query the ruleset with it. -/
def repeatedLog : Nat → Extension → List Call
  | 0, _ => []
  | n + 1, extension =>
    [Call.GetRequiredPermissions extension,
      Call.IsPermissionSetAllowed extension
        (PermissionsParser.GetRequiredPermissions extension)] ++ repeatedLog n extension

/-! ## Sample data -/

/-- A ruleset that denies every permission set. -/
def denyAll : ExtensionManagement :=
  { IsPermissionSetAllowed := fun _ _ => false }

/-- A ruleset that allows every permission set. -/
def allowAll : ExtensionManagement :=
  { IsPermissionSetAllowed := fun _ _ => true }

/-- A ruleset that denies any set containing "nativeMessaging". -/
def denyNativeMessaging : ExtensionManagement :=
  { IsPermissionSetAllowed := fun _ permissions => !permissions.contains "nativeMessaging" }

/-- The extension of the spec's concrete scenario, installed from the web store. -/
def myApp : Extension :=
  { id := "abc123", name := "My App", location := Location.WebStore,
    required_permissions := ["nativeMessaging"] }

/-- The same extension as a component extension. -/
def myComponentApp : Extension :=
  { myApp with location := Location.Component }

/-- A world for a call on `extension` with ruleset `settings` and the given
contents of the error location, with an empty call log. -/
def World.start (extension : Extension) (settings : Option ExtensionManagement)
    (error : Option String) : World :=
  { extension := extension,
    provider := PermissionsBasedManagementPolicyProvider.new settings,
    error := error,
    calls := [] }

/-- The same world with another argument for the `error` pointer: `none` for
a null pointer, `some text` for a location that holds `text`. -/
def World.withError (w : World) (error : Option String) : World :=
  { extension := w.extension, provider := w.provider, error := error, calls := w.calls }

/-- A ruleset that denies the empty permission set and allows every other. -/
def denyEmptySet : ExtensionManagement :=
  { IsPermissionSetAllowed := fun _ permissions => !permissions.isEmpty }

/-- A web-store extension that requires no permission. -/
def plainApp : Extension :=
  { id := "def456", name := "Plain App", location := Location.WebStore,
    required_permissions := [] }

/-! ## Two lemmas describing the two paths of the method -/

/-- On the component path the method returns true and leaves the world as it
found it. -/
theorem UserMayLoad_component_path (w : World)
    (hc : Manifest.IsComponentLocation w.extension.location = true) :
    PermissionsBasedManagementPolicyProvider.UserMayLoad w = Except.ok (true, w) := by
  simp [PermissionsBasedManagementPolicyProvider.UserMayLoad, hc]

/-- On the other path, with a ruleset present, the method returns the
ruleset's answer and leaves `afterQuery` behind. -/
theorem UserMayLoad_query_path (w : World) (settings : ExtensionManagement)
    (hc : Manifest.IsComponentLocation w.extension.location = false)
    (hs : w.provider.settings_ = some settings) :
    PermissionsBasedManagementPolicyProvider.UserMayLoad w =
      Except.ok (settings.IsPermissionSetAllowed w.extension w.extension.required_permissions,
        afterQuery w (settings.IsPermissionSetAllowed w.extension w.extension.required_permissions)) := by
  cases hq : settings.IsPermissionSetAllowed w.extension w.extension.required_permissions <;>
    cases he : w.error <;>
    simp [PermissionsBasedManagementPolicyProvider.UserMayLoad, hc, hs, hq, he, afterQuery,
      blockedMessage, PermissionsParser.GetRequiredPermissions]

/-- On the other path, with a null `settings_`, the embedding gives the marker
of undefined behaviour. -/
theorem UserMayLoad_null_path (w : World)
    (hc : Manifest.IsComponentLocation w.extension.location = false)
    (hs : w.provider.settings_ = none) :
    PermissionsBasedManagementPolicyProvider.UserMayLoad w =
      Except.error Fault.UndefinedBehavior := by
  simp [PermissionsBasedManagementPolicyProvider.UserMayLoad, hc, hs]

/-- The formatted message, spelled out. -/
theorem blockedMessage_eq (extension : Extension) :
    blockedMessage extension =
      "Extension " ++ extension.name ++ " (id: " ++ extension.id ++
        ") can't be installed because its required permissions are blocked by administrator policy." := by
  simp [blockedMessage, l10n_util.GetStringFUTF16, IDS_EXTENSION_CANT_INSTALL_POLICY_BLOCKED,
    base.UTF8ToUTF16, String.join, String.append_assoc]

/-- Every call takes one of the three paths. -/
theorem UserMayLoad_paths (w : World) :
    (Manifest.IsComponentLocation w.extension.location = true ∧
      PermissionsBasedManagementPolicyProvider.UserMayLoad w = Except.ok (true, w)) ∨
    (Manifest.IsComponentLocation w.extension.location = false ∧
      w.provider.settings_ = none ∧
      PermissionsBasedManagementPolicyProvider.UserMayLoad w =
        Except.error Fault.UndefinedBehavior) ∨
    (∃ settings : ExtensionManagement,
      Manifest.IsComponentLocation w.extension.location = false ∧
      w.provider.settings_ = some settings ∧
      PermissionsBasedManagementPolicyProvider.UserMayLoad w =
        Except.ok (settings.IsPermissionSetAllowed w.extension w.extension.required_permissions,
          afterQuery w
            (settings.IsPermissionSetAllowed w.extension w.extension.required_permissions))) := by
  cases hc : Manifest.IsComponentLocation w.extension.location with
  | true => exact Or.inl ⟨rfl, UserMayLoad_component_path w hc⟩
  | false =>
    cases hs : w.provider.settings_ with
    | none => exact Or.inr (Or.inl ⟨rfl, rfl, UserMayLoad_null_path w hc hs⟩)
    | some settings =>
      exact Or.inr (Or.inr ⟨settings, rfl, rfl, UserMayLoad_query_path w settings hc hs⟩)

/-- The formatted message is never the empty string. -/
theorem blockedMessage_ne_empty (extension : Extension) : blockedMessage extension ≠ "" := by
  intro h
  have hlen := congrArg String.length h
  rw [blockedMessage_eq] at hlen
  simp [String.length_append] at hlen
  exact absurd hlen.1.1.1.1 (by decide)

/-! ## The claims -/

/-- C1 (component bypass): for every extension whose location is a component
location, whatever the ruleset of the provider is (also one that denies
everything, also none at all), `UserMayLoad` returns true. -/
theorem UserMayLoad_component_bypass (w : World)
    (hc : Manifest.IsComponentLocation w.extension.location = true) :
    Except.map Prod.fst (PermissionsBasedManagementPolicyProvider.UserMayLoad w) =
      Except.ok true := by
  rw [UserMayLoad_component_path w hc]
  rfl

/-- Witness of C1: a component extension under a ruleset that denies everything. -/
theorem UserMayLoad_component_bypass_witness :
    Manifest.IsComponentLocation
        (World.start myComponentApp (some denyAll) (some "")).extension.location = true ∧
      denyAll.IsPermissionSetAllowed myComponentApp myComponentApp.required_permissions = false ∧
      Except.map Prod.fst (PermissionsBasedManagementPolicyProvider.UserMayLoad
        (World.start myComponentApp (some denyAll) (some ""))) = Except.ok true :=
  ⟨rfl, rfl, UserMayLoad_component_bypass (World.start myComponentApp (some denyAll) (some "")) rfl⟩

/-- C2 (delegation): for every non-component extension and every ruleset, the
boolean `UserMayLoad` returns is exactly
`IsPermissionSetAllowed(extension, GetRequiredPermissions(extension))`, and the
query recorded carries exactly these two arguments. -/
theorem UserMayLoad_delegates (w : World) (settings : ExtensionManagement)
    (hc : Manifest.IsComponentLocation w.extension.location = false)
    (hs : w.provider.settings_ = some settings) :
    ∃ w1 : World,
      PermissionsBasedManagementPolicyProvider.UserMayLoad w =
        Except.ok (settings.IsPermissionSetAllowed w.extension
          (PermissionsParser.GetRequiredPermissions w.extension), w1) ∧
      w1.calls = w.calls ++ [Call.GetRequiredPermissions w.extension,
        Call.IsPermissionSetAllowed w.extension
          (PermissionsParser.GetRequiredPermissions w.extension)] :=
  ⟨_, UserMayLoad_query_path w settings hc hs, rfl⟩

/-- Witness of C2: the web-store extension under a ruleset that denies its
permission, which answers false. -/
theorem UserMayLoad_delegates_witness :
    denyNativeMessaging.IsPermissionSetAllowed myApp
        (PermissionsParser.GetRequiredPermissions myApp) = false ∧
      ∃ w1 : World,
        PermissionsBasedManagementPolicyProvider.UserMayLoad
            (World.start myApp (some denyNativeMessaging) (some "")) =
          Except.ok (denyNativeMessaging.IsPermissionSetAllowed myApp
            (PermissionsParser.GetRequiredPermissions myApp), w1) ∧
        w1.calls = [] ++ [Call.GetRequiredPermissions myApp,
          Call.IsPermissionSetAllowed myApp (PermissionsParser.GetRequiredPermissions myApp)] :=
  ⟨rfl, UserMayLoad_delegates (World.start myApp (some denyNativeMessaging) (some ""))
    denyNativeMessaging rfl rfl⟩

/-- C3 (error message): for every non-component extension the ruleset denies,
`UserMayLoad` returns false and the error location, when the caller gave one,
holds the template with the extension's name first and its id second,
verbatim; the text is a function of that name and id alone. -/
theorem UserMayLoad_error_message (w : World) (settings : ExtensionManagement)
    (hc : Manifest.IsComponentLocation w.extension.location = false)
    (hs : w.provider.settings_ = some settings)
    (hd : settings.IsPermissionSetAllowed w.extension
      (PermissionsParser.GetRequiredPermissions w.extension) = false) :
    ∃ w1 : World,
      PermissionsBasedManagementPolicyProvider.UserMayLoad w = Except.ok (false, w1) ∧
      w1.error = w.error.map fun _ =>
        "Extension " ++ w.extension.name ++ " (id: " ++ w.extension.id ++
          ") can't be installed because its required permissions are blocked by administrator policy." := by
  have hd1 : settings.IsPermissionSetAllowed w.extension w.extension.required_permissions = false := hd
  refine ⟨afterQuery w false, ?_, ?_⟩
  · rw [UserMayLoad_query_path w settings hc hs, hd1]
  · simp [afterQuery, blockedMessage_eq]

/-- Witness of C3: the spec's scenario, id "abc123" and name "My App". -/
theorem UserMayLoad_error_message_witness :
    ∃ w1 : World,
      PermissionsBasedManagementPolicyProvider.UserMayLoad
          (World.start myApp (some denyNativeMessaging) (some "")) = Except.ok (false, w1) ∧
      w1.error = some
        "Extension My App (id: abc123) can't be installed because its required permissions are blocked by administrator policy." :=
  UserMayLoad_error_message (World.start myApp (some denyNativeMessaging) (some ""))
    denyNativeMessaging rfl rfl rfl

/-- C4, refuted as stated: a caller that passes no error location gets false
from a denying ruleset and no message. -/
theorem UserMayLoad_denial_without_message :
    Except.map (fun r => (r.1, populated r.2.error))
        (PermissionsBasedManagementPolicyProvider.UserMayLoad
          (World.start myApp (some denyAll) none)) =
      Except.ok (false, false) := by
  rfl

/-- C4, amended: for every call of `UserMayLoad` that returns false and was
given an error location, that location holds the formatted message for the
extension afterwards, and it is populated. -/
theorem UserMayLoad_denial_populates_error (w w1 : World)
    (he : w.error.isSome = true)
    (h : PermissionsBasedManagementPolicyProvider.UserMayLoad w = Except.ok (false, w1)) :
    w1.error = some (blockedMessage w.extension) ∧ populated w1.error = true := by
  have hmsg : w1.error = some (blockedMessage w.extension) := by
    rcases UserMayLoad_paths w with ⟨_, hp⟩ | ⟨_, _, hp⟩ | ⟨settings, _, _, hp⟩
    · rw [hp] at h
      cases h
    · rw [hp] at h
      cases h
    · rw [hp] at h
      injection h with h
      injection h with hb hw
      rw [← hw, hb]
      cases hw0 : w.error with
      | none => simp [hw0] at he
      | some e0 => simp [afterQuery, hw0]
  refine ⟨hmsg, ?_⟩
  rw [hmsg]
  simp [populated, blockedMessage_ne_empty]

/-- Witness of the amended C4: the denied web-store extension, with an error
location that starts empty. -/
theorem UserMayLoad_denial_populates_error_witness :
    (World.start myApp (some denyAll) (some "")).error.isSome = true ∧
      PermissionsBasedManagementPolicyProvider.UserMayLoad
          (World.start myApp (some denyAll) (some "")) =
        Except.ok (false, afterQuery (World.start myApp (some denyAll) (some "")) false) ∧
      (afterQuery (World.start myApp (some denyAll) (some "")) false).error =
        some (blockedMessage myApp) ∧
      populated (afterQuery (World.start myApp (some denyAll) (some "")) false).error = true :=
  ⟨rfl, rfl, UserMayLoad_denial_populates_error (World.start myApp (some denyAll) (some ""))
    (afterQuery (World.start myApp (some denyAll) (some "")) false) rfl rfl⟩

/-- C5, refuted as stated: a provider constructed with a null ruleset allows a
component extension. -/
theorem UserMayLoad_null_settings_component :
    Except.map Prod.fst (PermissionsBasedManagementPolicyProvider.UserMayLoad
      { extension := myComponentApp,
        provider := PermissionsBasedManagementPolicyProvider.new none,
        error := some "",
        calls := [] }) = Except.ok true := by
  rfl

/-- C5, amended: the provider does not check its ruleset pointer.  For every
component extension, a call on a provider constructed with a null ruleset
returns true and leaves the whole world, call log included, as it was: the
null ruleset is never reached.  (For other extensions the null pointer is
used, which is undefined behaviour; nothing is stated about that case.) -/
theorem UserMayLoad_null_settings_component_allowed (w : World)
    (hc : Manifest.IsComponentLocation w.extension.location = true)
    (hp : w.provider = PermissionsBasedManagementPolicyProvider.new none) :
    w.provider.settings_ = none ∧
      PermissionsBasedManagementPolicyProvider.UserMayLoad w = Except.ok (true, w) := by
  refine ⟨?_, UserMayLoad_component_path w hc⟩
  rw [hp]
  rfl

/-- Witness of the amended C5: the component extension on a provider without a
ruleset. -/
theorem UserMayLoad_null_settings_component_allowed_witness :
    (World.start myComponentApp none (some "stale")).provider.settings_ = none ∧
      PermissionsBasedManagementPolicyProvider.UserMayLoad
          (World.start myComponentApp none (some "stale")) =
        Except.ok (true, World.start myComponentApp none (some "stale")) :=
  UserMayLoad_null_settings_component_allowed (World.start myComponentApp none (some "stale"))
    rfl rfl

/-- Counting queries in a log that was extended by one call of the parser and
one query. -/
theorem queryCount_afterQuery (w : World) (allowed : Bool) :
    queryCount (afterQuery w allowed).calls = queryCount w.calls + 1 := by
  simp [queryCount, afterQuery, List.filter_append, List.filter_cons, Call.isQuery]

/-- C6 (no query on the component path): for every component extension a call
of `UserMayLoad` returns true and records no collaborator call at all, neither
a query of the ruleset nor a computation of the required-permission set. -/
theorem UserMayLoad_component_records_nothing (w : World)
    (hc : Manifest.IsComponentLocation w.extension.location = true) :
    ∃ w1 : World,
      PermissionsBasedManagementPolicyProvider.UserMayLoad w = Except.ok (true, w1) ∧
      w1.calls = w.calls ∧
      queryCount w1.calls = queryCount w.calls :=
  ⟨w, UserMayLoad_component_path w hc, rfl, rfl⟩

/-- Witness of C6: the component extension, starting from an empty log. -/
theorem UserMayLoad_component_records_nothing_witness :
    ∃ w1 : World,
      PermissionsBasedManagementPolicyProvider.UserMayLoad
          (World.start myComponentApp (some denyAll) (some "")) = Except.ok (true, w1) ∧
      w1.calls = [] ∧
      queryCount w1.calls = 0 :=
  UserMayLoad_component_records_nothing (World.start myComponentApp (some denyAll) (some "")) rfl

/-- C7 (no caching): on a non-component extension every call of `UserMayLoad`
puts exactly one query to the ruleset, with the extension and its required
set, and returns the ruleset's answer to it; n calls in a row with the same
extension and ruleset all return that answer and record exactly these n
queries, so none of them is answered from an earlier call. -/
theorem UserMayLoad_queries_every_call (n : Nat) (w : World) (settings : ExtensionManagement)
    (hc : Manifest.IsComponentLocation w.extension.location = false)
    (hs : w.provider.settings_ = some settings) :
    (∃ w1 : World,
      PermissionsBasedManagementPolicyProvider.UserMayLoad w =
        Except.ok (settings.IsPermissionSetAllowed w.extension
          (PermissionsParser.GetRequiredPermissions w.extension), w1) ∧
      w1.calls = w.calls ++ [Call.GetRequiredPermissions w.extension,
        Call.IsPermissionSetAllowed w.extension
          (PermissionsParser.GetRequiredPermissions w.extension)] ∧
      queryCount w1.calls = queryCount w.calls + 1) ∧
    (∃ wn : World,
      callRepeatedly n w =
        Except.ok (List.replicate n (settings.IsPermissionSetAllowed w.extension
          (PermissionsParser.GetRequiredPermissions w.extension)), wn) ∧
      wn.calls = w.calls ++ repeatedLog n w.extension ∧
      queryCount wn.calls = queryCount w.calls + n) := by
  constructor
  · exact ⟨_, UserMayLoad_query_path w settings hc hs, rfl, queryCount_afterQuery w _⟩
  · induction n generalizing w with
    | zero => exact ⟨w, rfl, by simp [repeatedLog], rfl⟩
    | succ k ih =>
      have hstep := UserMayLoad_query_path w settings hc hs
      obtain ⟨wn, hrun, hlog, hcount⟩ :=
        ih (afterQuery w
          (settings.IsPermissionSetAllowed w.extension w.extension.required_permissions)) hc hs
      have hrun1 : callRepeatedly k (afterQuery w
          (settings.IsPermissionSetAllowed w.extension w.extension.required_permissions)) =
          Except.ok (List.replicate k (settings.IsPermissionSetAllowed w.extension
            w.extension.required_permissions), wn) := hrun
      refine ⟨wn, ?_, ?_, ?_⟩
      · simp only [callRepeatedly, hstep, hrun1]
        rfl
      · rw [hlog]
        simp [afterQuery, repeatedLog, PermissionsParser.GetRequiredPermissions]
      · rw [hcount, queryCount_afterQuery]
        omega

/-- Witness of C7: three calls on the web-store extension under a ruleset that
denies it return false three times and record three queries. -/
theorem UserMayLoad_queries_every_call_witness :
    (∃ w1 : World,
      PermissionsBasedManagementPolicyProvider.UserMayLoad
          (World.start myApp (some denyNativeMessaging) (some "")) = Except.ok (false, w1) ∧
      w1.calls = [Call.GetRequiredPermissions myApp,
        Call.IsPermissionSetAllowed myApp ["nativeMessaging"]] ∧
      queryCount w1.calls = 0 + 1) ∧
    (∃ wn : World,
      callRepeatedly 3 (World.start myApp (some denyNativeMessaging) (some "")) =
        Except.ok ([false, false, false], wn) ∧
      wn.calls =
        [Call.GetRequiredPermissions myApp, Call.IsPermissionSetAllowed myApp ["nativeMessaging"],
         Call.GetRequiredPermissions myApp, Call.IsPermissionSetAllowed myApp ["nativeMessaging"],
         Call.GetRequiredPermissions myApp, Call.IsPermissionSetAllowed myApp ["nativeMessaging"]] ∧
      queryCount wn.calls = 0 + 3) :=
  UserMayLoad_queries_every_call 3 (World.start myApp (some denyNativeMessaging) (some ""))
    denyNativeMessaging rfl rfl

/-- C8 (idempotence): when a call of `UserMayLoad` has returned, a second call
with the same extension and provider, and an error location given in the same
way (whatever string it holds by then), returns the same boolean and, when
that boolean is false, leaves the same error message. -/
theorem UserMayLoad_idempotent (w w1 : World) (allowed : Bool) (error2 : Option String)
    (hn : error2.isSome = w.error.isSome)
    (h1 : PermissionsBasedManagementPolicyProvider.UserMayLoad w = Except.ok (allowed, w1)) :
    ∃ w2 : World,
      PermissionsBasedManagementPolicyProvider.UserMayLoad
          { extension := w1.extension, provider := w1.provider, error := error2,
            calls := w1.calls } = Except.ok (allowed, w2) ∧
      (allowed = false → w2.error = w1.error) := by
  rcases UserMayLoad_paths w with ⟨hc, hp⟩ | ⟨_, _, hp⟩ | ⟨settings, hc, hs, hp⟩
  · rw [hp] at h1
    injection h1 with h1
    injection h1 with hb hw
    subst hb
    subst hw
    exact ⟨_, UserMayLoad_component_path _ hc, fun hfalse => by cases hfalse⟩
  · rw [hp] at h1
    cases h1
  · rw [hp] at h1
    injection h1 with h1
    injection h1 with hb hw
    subst hw
    subst hb
    have h2 := UserMayLoad_query_path
      { extension := w.extension, provider := w.provider, error := error2,
        calls := (afterQuery w
          (settings.IsPermissionSetAllowed w.extension w.extension.required_permissions)).calls }
      settings hc hs
    refine ⟨_, h2, ?_⟩
    intro hfalse
    cases he2 : error2 <;> cases he : w.error <;>
      simp [afterQuery, hfalse, he, he2] at hn ⊢

/-- Witness of C8: the denied web-store extension, called a second time with
the error location the first call wrote. -/
theorem UserMayLoad_idempotent_witness :
    PermissionsBasedManagementPolicyProvider.UserMayLoad
        (World.start myApp (some denyAll) (some "")) =
      Except.ok (false, afterQuery (World.start myApp (some denyAll) (some "")) false) ∧
    ∃ w2 : World,
      PermissionsBasedManagementPolicyProvider.UserMayLoad
          (afterQuery (World.start myApp (some denyAll) (some "")) false) =
        Except.ok (false, w2) ∧
      (false = false →
        w2.error = (afterQuery (World.start myApp (some denyAll) (some "")) false).error) :=
  ⟨rfl, UserMayLoad_idempotent (World.start myApp (some denyAll) (some ""))
    (afterQuery (World.start myApp (some denyAll) (some "")) false) false
    (some (blockedMessage myApp)) rfl rfl⟩

/-- C9 (no mutation of inputs): for every call of `UserMayLoad` that returns,
the extension and the provider with its ruleset are afterwards what they were
before; the world differs at most in the string behind the error pointer and
in the log of calls, and a null error pointer stays null. -/
theorem UserMayLoad_preserves_inputs (w w1 : World) (allowed : Bool)
    (h : PermissionsBasedManagementPolicyProvider.UserMayLoad w = Except.ok (allowed, w1)) :
    w1.extension = w.extension ∧
      w1.provider = w.provider ∧
      w1.provider.settings_ = w.provider.settings_ ∧
      w1.error.isSome = w.error.isSome ∧
      w1 = { extension := w.extension, provider := w.provider, error := w1.error,
             calls := w1.calls } := by
  rcases UserMayLoad_paths w with ⟨_, hp⟩ | ⟨_, _, hp⟩ | ⟨settings, _, _, hp⟩
  · rw [hp] at h
    injection h with h
    injection h with hb hw
    subst hw
    exact ⟨rfl, rfl, rfl, rfl, rfl⟩
  · rw [hp] at h
    cases h
  · rw [hp] at h
    injection h with h
    injection h with hb hw
    subst hw
    refine ⟨rfl, rfl, rfl, ?_, rfl⟩
    cases settings.IsPermissionSetAllowed w.extension w.extension.required_permissions <;>
      cases he : w.error <;> simp [afterQuery, he]

/-- Witness of C9: the denied web-store extension. -/
theorem UserMayLoad_preserves_inputs_witness :
    PermissionsBasedManagementPolicyProvider.UserMayLoad
        (World.start myApp (some denyAll) (some "")) =
      Except.ok (false, afterQuery (World.start myApp (some denyAll) (some "")) false) ∧
    (afterQuery (World.start myApp (some denyAll) (some "")) false).extension = myApp ∧
    (afterQuery (World.start myApp (some denyAll) (some "")) false).provider =
      PermissionsBasedManagementPolicyProvider.new (some denyAll) ∧
    (afterQuery (World.start myApp (some denyAll) (some "")) false).provider.settings_ =
      some denyAll ∧
    (afterQuery (World.start myApp (some denyAll) (some "")) false).error.isSome = true ∧
    afterQuery (World.start myApp (some denyAll) (some "")) false =
      { extension := myApp, provider := PermissionsBasedManagementPolicyProvider.new (some denyAll),
        error := (afterQuery (World.start myApp (some denyAll) (some "")) false).error,
        calls := (afterQuery (World.start myApp (some denyAll) (some "")) false).calls } :=
  ⟨rfl, UserMayLoad_preserves_inputs (World.start myApp (some denyAll) (some ""))
    (afterQuery (World.start myApp (some denyAll) (some "")) false) false rfl⟩

/-- C10 (message only on the negative path): for every call of `UserMayLoad`
that returns true, by the component bypass or by the ruleset's answer, the
error location holds afterwards exactly what it held before. -/
theorem UserMayLoad_true_keeps_error (w w1 : World)
    (h : PermissionsBasedManagementPolicyProvider.UserMayLoad w = Except.ok (true, w1)) :
    w1.error = w.error := by
  rcases UserMayLoad_paths w with ⟨_, hp⟩ | ⟨_, _, hp⟩ | ⟨settings, _, _, hp⟩
  · rw [hp] at h
    injection h with h
    injection h with hb hw
    rw [← hw]
  · rw [hp] at h
    cases h
  · rw [hp] at h
    injection h with h
    injection h with hb hw
    rw [← hw, hb]
    rfl

/-- Witness of C10: the web-store extension under a ruleset that allows it,
with an error location that holds an older text. -/
theorem UserMayLoad_true_keeps_error_witness :
    PermissionsBasedManagementPolicyProvider.UserMayLoad
        (World.start myApp (some allowAll) (some "stale")) =
      Except.ok (true, afterQuery (World.start myApp (some allowAll) (some "stale")) true) ∧
    (afterQuery (World.start myApp (some allowAll) (some "stale")) true).error = some "stale" :=
  ⟨rfl, UserMayLoad_true_keeps_error (World.start myApp (some allowAll) (some "stale"))
    (afterQuery (World.start myApp (some allowAll) (some "stale")) true) rfl⟩

/-- C11 (empty capability set): for every non-component extension whose
required-permission set is empty, `UserMayLoad` queries the ruleset with the
empty set and returns its answer; when the ruleset denies the empty set the
call returns false. -/
theorem UserMayLoad_empty_set_is_queried (w : World) (settings : ExtensionManagement)
    (hc : Manifest.IsComponentLocation w.extension.location = false)
    (hs : w.provider.settings_ = some settings)
    (hempty : PermissionsParser.GetRequiredPermissions w.extension = []) :
    (∃ w1 : World,
      PermissionsBasedManagementPolicyProvider.UserMayLoad w =
        Except.ok (settings.IsPermissionSetAllowed w.extension [], w1) ∧
      w1.calls = w.calls ++ [Call.GetRequiredPermissions w.extension,
        Call.IsPermissionSetAllowed w.extension []] ∧
      queryCount w1.calls = queryCount w.calls + 1) ∧
    (settings.IsPermissionSetAllowed w.extension [] = false →
      Except.map Prod.fst (PermissionsBasedManagementPolicyProvider.UserMayLoad w) =
        Except.ok false) := by
  have hreq : w.extension.required_permissions = [] := hempty
  have hstep := UserMayLoad_query_path w settings hc hs
  rw [hreq] at hstep
  refine ⟨⟨_, hstep, ?_, ?_⟩, ?_⟩
  · simp [afterQuery, hreq]
  · exact queryCount_afterQuery w _
  · intro hdeny
    rw [hstep, hdeny]
    rfl

/-- Witness of C11: an extension without permissions under a ruleset that
denies exactly the empty set. -/
theorem UserMayLoad_empty_set_is_queried_witness :
    denyEmptySet.IsPermissionSetAllowed plainApp [] = false ∧
    (∃ w1 : World,
      PermissionsBasedManagementPolicyProvider.UserMayLoad
          (World.start plainApp (some denyEmptySet) (some "")) =
        Except.ok (denyEmptySet.IsPermissionSetAllowed plainApp [], w1) ∧
      w1.calls = [] ++ [Call.GetRequiredPermissions plainApp,
        Call.IsPermissionSetAllowed plainApp []] ∧
      queryCount w1.calls = 0 + 1) ∧
    Except.map Prod.fst (PermissionsBasedManagementPolicyProvider.UserMayLoad
      (World.start plainApp (some denyEmptySet) (some ""))) = Except.ok false :=
  ⟨rfl,
    (UserMayLoad_empty_set_is_queried (World.start plainApp (some denyEmptySet) (some ""))
      denyEmptySet rfl rfl rfl).1,
    (UserMayLoad_empty_set_is_queried (World.start plainApp (some denyEmptySet) (some ""))
      denyEmptySet rfl rfl rfl).2 rfl⟩

/-- C12 (the decision does not depend on the error output): for every
extension and provider, `UserMayLoad` gives the same outcome boolean (or the
same fault) whatever the caller passes as error pointer, null or a location
with any text; and with a null error pointer and a ruleset that denies, the
call returns false, the pointer stays null and nothing but the call log
changes. -/
theorem UserMayLoad_decision_ignores_error (w : World) (error1 error2 : Option String) :
    Except.map Prod.fst
        (PermissionsBasedManagementPolicyProvider.UserMayLoad (w.withError error1)) =
      Except.map Prod.fst
        (PermissionsBasedManagementPolicyProvider.UserMayLoad (w.withError error2)) ∧
    ∀ settings : ExtensionManagement,
      Manifest.IsComponentLocation w.extension.location = false →
      w.provider.settings_ = some settings →
      settings.IsPermissionSetAllowed w.extension
        (PermissionsParser.GetRequiredPermissions w.extension) = false →
      ∃ w1 : World,
        PermissionsBasedManagementPolicyProvider.UserMayLoad (w.withError none) =
          Except.ok (false, w1) ∧
        w1.error = none ∧
        w1.extension = w.extension ∧
        w1.provider = w.provider := by
  constructor
  · cases hc : Manifest.IsComponentLocation w.extension.location with
    | true =>
      rw [UserMayLoad_component_path (w.withError error1) hc,
        UserMayLoad_component_path (w.withError error2) hc]
      rfl
    | false =>
      cases hs : w.provider.settings_ with
      | none =>
        rw [UserMayLoad_null_path (w.withError error1) hc hs,
          UserMayLoad_null_path (w.withError error2) hc hs]
      | some settings =>
        rw [UserMayLoad_query_path (w.withError error1) settings hc hs,
          UserMayLoad_query_path (w.withError error2) settings hc hs]
        rfl
  · intro settings hc hs hdeny
    have hd1 : settings.IsPermissionSetAllowed (w.withError none).extension
        (w.withError none).extension.required_permissions = false := hdeny
    have hstep := UserMayLoad_query_path (w.withError none) settings hc hs
    rw [hd1] at hstep
    exact ⟨_, hstep, rfl, rfl, rfl⟩

/-- Witness of C12: the denied web-store extension, called once with a null
error pointer and once with a location that holds an older text. -/
theorem UserMayLoad_decision_ignores_error_witness :
    (Except.map Prod.fst (PermissionsBasedManagementPolicyProvider.UserMayLoad
        ((World.start myApp (some denyNativeMessaging) none).withError none)) =
      Except.map Prod.fst (PermissionsBasedManagementPolicyProvider.UserMayLoad
        ((World.start myApp (some denyNativeMessaging) none).withError (some "stale")))) ∧
    Except.map Prod.fst (PermissionsBasedManagementPolicyProvider.UserMayLoad
      ((World.start myApp (some denyNativeMessaging) none).withError (some "stale"))) =
        Except.ok false ∧
    ∃ w1 : World,
      PermissionsBasedManagementPolicyProvider.UserMayLoad
          ((World.start myApp (some denyNativeMessaging) none).withError none) =
        Except.ok (false, w1) ∧
      w1.error = none ∧
      w1.extension = myApp ∧
      w1.provider = PermissionsBasedManagementPolicyProvider.new (some denyNativeMessaging) :=
  ⟨(UserMayLoad_decision_ignores_error (World.start myApp (some denyNativeMessaging) none)
      none (some "stale")).1,
    rfl,
    (UserMayLoad_decision_ignores_error (World.start myApp (some denyNativeMessaging) none)
      none (some "stale")).2 denyNativeMessaging rfl rfl rfl⟩

end extensions
